import Mathlib

/-!
Verification of the pydacc data-cleaning / clustering orchestration layer.

This file gives a shallow embedding of the orchestration logic of
`pydacc/data_cleaning.py` and `pydacc/clustering.py` and proves or refutes
the specified properties of that logic.

Modelling conventions:
* A pandas `DataFrame` is a `Dataset`: an ordered list of column names plus a
  list of rows, each row a list of `Cell`s (`Cell.na` models `NaN`).
* Python `None`-or-list arguments are `Option (List _)`; Python truthiness of
  such a value (`if xs:`) is `pyTruthyList`.
* A float threshold is idealised as a rational `ℚ`; truthiness of a float
  (`if t:`) is "numerator nonzero", i.e. `t ≠ 0`.
* Fallible Python code (raising `KeyError` / `TypeError`) returns `Except Unit`.
* External capabilities (pandas parsing, pycaret fitting, klib narrowing) are
  black boxes; only the calls the repository makes to them, with the argument
  values it passes, are modelled.
-/

/-- One cell of a tabular dataset: either a missing value (pandas `NaN`)
or a present value.  Only presence and equality of values matter to the
cleaning logic, so values are represented as strings. -/
inductive Cell where
  | na : Cell
  | val : String → Cell
deriving DecidableEq

/-- Whether a cell is missing (pandas `isna`). -/
def Cell.isNA : Cell → Bool
  | .na => true
  | .val _ => false

/-- A rectangular in-memory table: ordered column names and rows of cells.
Models the pandas `DataFrame` flowing through `clean_data`. -/
structure Dataset where
  cols : List String
  rows : List (List Cell)
deriving DecidableEq

/-- Python truthiness of an optional list argument: `None` and `[]` are falsy,
a non-empty list is truthy.  Models `if drop_columns:` / `if list1:`. -/
def pyTruthyList (o : Option (List String)) : Bool :=
  match o with
  | none => false
  | some l => !l.isEmpty

/-- Python truthiness of the optional float `column_drop_threshold`
(`if column_drop_threshold:`): `None` and `0.0` are falsy, any other number is
truthy.  A rational is nonzero iff its numerator is. -/
def pyTruthyQ (o : Option ℚ) : Bool :=
  match o with
  | none => false
  | some q => q.num != 0

/-- Cells of column `j` of `d`, read off every row (as pandas does along
`axis="columns"`).  Out-of-range reads default to `NaN`; on rectangular data
the default is never used. -/
def colCells (d : Dataset) (j : ℕ) : List Cell :=
  d.rows.map (fun r => r.getD j Cell.na)

/-- Number of non-missing entries in column `j` — the count pandas compares
against `thresh` in `df.dropna(axis="columns", thresh=...)`. -/
def nonNACount (d : Dataset) (j : ℕ) : ℕ :=
  (colCells d j).countP (fun c => !c.isNA)

/-- The pandas keep-test of `data_cleaning.py` lines 63–68:
`df.dropna(axis="columns", thresh=(1 - column_drop_threshold) * df.shape[0])`
keeps column `j` iff its non-NA count is at least `(1 - t) * nrows`.
With `t = t.num / t.den` and `t.den > 0`, that inequality is equivalent to the
integer inequality `(t.den - t.num) * nrows ≤ count * t.den`, which is the
executable form used here; `keepCol_iff` below proves the equivalence with the
rational-arithmetic formula of the source. -/
def keepCol (t : ℚ) (d : Dataset) (j : ℕ) : Bool :=
  decide (((t.den : ℤ) - t.num) * (d.rows.length : ℤ) ≤ (nonNACount d j : ℤ) * (t.den : ℤ))

/-- Indices of the columns surviving the threshold test, in original order. -/
def keptIdx (t : ℚ) (d : Dataset) : List ℕ :=
  (List.range d.cols.length).filter (keepCol t d)

/-- Column dropping by missing-value threshold (lines 63–68): restrict the
column list and every row to the surviving column indices. -/
def dropColsByThresh (t : ℚ) (d : Dataset) : Dataset :=
  { cols := (keptIdx t d).map (fun j => d.cols.getD j "")
    rows := d.rows.map (fun r => (keptIdx t d).map (fun j => r.getD j Cell.na)) }

/-- Whether a row still contains a missing value in any remaining column. -/
def rowHasNA (r : List Cell) : Bool :=
  r.any Cell.isNA

/-- Unconditional row dropping (line 71): `df.dropna(axis="index")` removes
every row containing any missing value. -/
def dropNARows (rs : List (List Cell)) : List (List Cell) :=
  rs.filter (fun r => !rowHasNA r)

/-- The named-column drop of lines 56–59: remove every column whose name is in
`names`, keeping the rest in order. -/
def dropNamed (names : List String) (d : Dataset) : Dataset :=
  { cols := ((List.range d.cols.length).filter
        (fun j => !names.contains (d.cols.getD j ""))).map (fun j => d.cols.getD j "")
    rows := d.rows.map (fun r => ((List.range d.cols.length).filter
        (fun j => !names.contains (d.cols.getD j ""))).map (fun j => r.getD j Cell.na)) }

/-- Step 1 of `clean_data` (lines 56–59): `if drop_columns:
df.drop(columns=drop_columns, inplace=True)`.  pandas `drop` raises `KeyError`
when any named column is absent; a falsy argument skips the step. -/
def namedStep (drop_columns : Option (List String)) (d : Dataset) : Except Unit Dataset :=
  if pyTruthyList drop_columns then
    if (drop_columns.getD []).all (fun n => d.cols.contains n) then
      Except.ok (dropNamed (drop_columns.getD []) d)
    else Except.error ()
  else Except.ok d

/-- Step 2 of `clean_data` (lines 62–68): the threshold column drop, executed
only when `column_drop_threshold` is truthy. -/
def threshStep (t : Option ℚ) (d : Dataset) : Dataset :=
  if pyTruthyQ t then dropColsByThresh (t.getD 0) d else d

/-- Step 3 of `clean_data` (line 71): drop every row that still has a missing
value. -/
def rowStep (d : Dataset) : Dataset :=
  { d with rows := dropNARows d.rows }

/-- Steps 1–3 of `clean_data`: everything up to and including row dropping,
i.e. the dataframe as it stands just before line 75. -/
def drop_steps (drop_columns : Option (List String)) (t : Option ℚ) (d : Dataset) :
    Except Unit Dataset :=
  match namedStep drop_columns d with
  | Except.error e => Except.error e
  | Except.ok d1 => Except.ok (rowStep (threshStep t d1))

/-- The memory/type-normalisation step (line 75).  The source executes
`klib.data_cleaning(df)` as a bare statement and discards its return value, so
the dataframe value flowing on is unchanged; the external klib capability is a
width-narrowing optimisation and does not mutate the values of its argument.
Hence this step is the identity on the dataset value. -/
def klibStep (d : Dataset) : Dataset := d

/-- `clean_data` of `data_cleaning.py` (lines 44–82), from the point where the
CSV input has been parsed into a dataframe: named-column drop, threshold column
drop, row drop, klib step, then the surviving-column list is read off
`df.columns`.  Returns the cleaned dataset and that list. -/
def clean_data (drop_columns : Option (List String)) (t : Option ℚ) (d : Dataset) :
    Except Unit (Dataset × List String) :=
  match drop_steps drop_columns t d with
  | Except.error e => Except.error e
  | Except.ok d3 => Except.ok (klibStep d3, (klibStep d3).cols)

/-- No cell of the dataset is missing: no row contains an NA cell. -/
def noMissing (d : Dataset) : Bool :=
  d.rows.all (fun r => !rowHasNA r)

/-- `get_common_items` of `data_cleaning.py` (lines 85–106), exactly as
written: `if list1 or list2 is None: return None`.  By Python precedence this
is `if list1 or (list2 is None)`, so any truthy `list1` short-circuits to
`None`.  Otherwise the comprehension `[value for value in list1 if value in
list2]` runs; iterating over a `None` `list1` would raise `TypeError`. -/
def get_common_items (list1 list2 : Option (List String)) :
    Except Unit (Option (List String)) :=
  if pyTruthyList list1 || list2.isNone then Except.ok none
  else
    match list1, list2 with
    | some l1, some l2 => Except.ok (some (l1.filter (fun v => l2.contains v)))
    | none, some _ => Except.error ()
    | _, none => Except.ok none

/-- Truthiness, at line 91 of `clustering.py`, of the local name `save_model`.
Line 72 `from pycaret.clustering import setup, create_model, save_model,
assign_model` rebinds the function-local `save_model`, so by line 91 that name
holds pycaret's `save_model` function object — which is truthy — and the
boolean parameter of the same name is no longer reachable. -/
def pycaretSaveModelTruthy : Bool := true

/-- What `train_clustering_model` returns: either the handle produced by
pycaret's `save_model(kmeans, name)` after writing the model file, or the
in-memory fitted model. -/
inductive TrainReturn where
  | savedHandle : String → TrainReturn
  | inMemory : TrainReturn
deriving DecidableEq

/-- The persistence behaviour of `train_clustering_model` (`clustering.py`
lines 72–97).  The data preparation and fitting (lines 59–87) are external
capabilities and do not affect which branch runs.  `save_model_arg` is the
caller's boolean `save_model` argument; the branch at line 91 tests the local
name `save_model`, which line 72 rebound to the imported function
(`pycaretSaveModelTruthy`).  The first component is the list of model files
written, named `f"{file_name}_{date.today()}"`; the second is the returned
value. -/
def train_clustering_model (save_model_arg : Bool) (file_name : String)
    (today : String) : List String × TrainReturn :=
  if pycaretSaveModelTruthy then
    ([file_name ++ "_" ++ today], TrainReturn.savedHandle (file_name ++ "_" ++ today))
  else
    ([], TrainReturn.inMemory)

/-- The fixed Auto-K candidate set `k_space = [3, 4, 5, 6, 7, 8, 9, 10]` of
`clustering.py` line 151. -/
def k_space : List ℕ := [3, 4, 5, 6, 7, 8, 9, 10]

/-- Python's built-in `max` over a list of scores: a left fold of binary `max`
over the elements; raises (`none`) on an empty list. -/
def pymax (l : List ℚ) : Option ℚ :=
  match l with
  | [] => none
  | x :: xs => some (xs.foldl max x)

/-- The winner selection of `automl_clustering` (lines 169–173):
`index_best_k = score.index(max(score)); k = k_space[index_best_k]`.
`list.index` returns the first index holding the value, and indexing past the
end (`none`) models Python's `IndexError`. -/
def select_best_k (score : List ℚ) : Option ℕ :=
  match pymax score with
  | none => none
  | some m => k_space[score.findIdx (fun s => decide (s = m))]?

/-- The sequence of `k` values for which `automl_clustering`
(lines 150–185) invokes `train_clustering_model`, given the silhouette score
`sil k` that `get_config("create_model_container")` reports for each
candidate fit: one training call per candidate in scan order, then one final
call for the winning `k`. -/
def automl_clustering_trace (sil : ℕ → ℚ) : Option (List ℕ) :=
  match select_best_k (k_space.map sil) with
  | none => none
  | some k => some (k_space ++ [k])

/-- A write performed by `assign_cluster_labels`, with the arguments the source
passes to pandas: `to_csv(path, index=False)` records the `index` flag;
`to_json(path)` records the `orient` argument, `none` meaning "not passed"
(pandas then uses its default column-oriented layout for a dataframe). -/
inductive WriteAction where
  | csv : String → Bool → WriteAction
  | json : String → Option String → WriteAction
deriving DecidableEq

/-- Outcome of `assign_cluster_labels`: the in-memory labelled dataframe
(`save_output=False`), a file write (the function then returns the
`to_csv`/`to_json` return value, which is `None`), a silent `None` return with
no write, or a raised exception (never produced by this dispatch logic). -/
inductive AssignResult where
  | df : AssignResult
  | written : WriteAction → AssignResult
  | noneSilent : AssignResult
  | raised : String → AssignResult
deriving DecidableEq

/-- Whether the outcome is a raised exception. -/
def AssignResult.isRaised : AssignResult → Bool
  | .raised _ => true
  | _ => false

/-- The output dispatch of `assign_cluster_labels` (`clustering.py` lines
226–237), given that loading the model and assigning labels succeeded.
With `save_output` truthy: `file_name` defaults to `saved_model`; the format
`"csv"` writes `f"{file_name}.csv"` with `index=False`; `"json"` writes
`f"{file_name}.json"` with no `orient` argument; any other format falls
through both `if`s and the function returns Python `None` without writing or
raising.  With `save_output` falsy the labelled dataframe is returned. -/
def assign_cluster_labels (saved_model : String) (save_output : Bool)
    (file_name : Option String) (output_format : String) : AssignResult :=
  if save_output then
    if output_format = "csv" then
      AssignResult.written (WriteAction.csv (file_name.getD saved_model ++ ".csv") false)
    else if output_format = "json" then
      AssignResult.written (WriteAction.json (file_name.getD saved_model ++ ".json") none)
    else AssignResult.noneSilent
  else AssignResult.df

/-- Concrete dataset for the threshold-boundary evaluation: two rows, column
`"x"` missing in exactly one of them (missing ratio exactly 1/2). -/
def dsBoundary : Dataset :=
  { cols := ["x", "y"]
    rows := [[Cell.val "1", Cell.val "2"], [Cell.na, Cell.val "3"]] }

/-- Concrete dataset whose column `"x"` is entirely missing, for the
falsy-threshold evaluation. -/
def dsAllNACol : Dataset :=
  { cols := ["x", "y"]
    rows := [[Cell.na, Cell.val "1"], [Cell.na, Cell.val "2"]] }

/-- Concrete input dataset for the no-missing-cells witness. -/
def dsMissingOne : Dataset :=
  { cols := ["a"], rows := [[Cell.val "1"], [Cell.na]] }

/-- Concrete input dataset for the klib-preservation witness. -/
def dsKlib : Dataset :=
  { cols := ["a"], rows := [[Cell.na], [Cell.val "2"]] }

/-- Cleaned form of `dsKlib` after the dropping steps. -/
def dsKlibClean : Dataset :=
  { cols := ["a"], rows := [[Cell.val "2"]] }

/-- Concrete input dataset for the idempotence witness. -/
def dsIdem : Dataset :=
  { cols := ["a", "b"]
    rows := [[Cell.val "1", Cell.na], [Cell.val "2", Cell.val "3"]] }

/-- Output of cleaning `dsIdem` at threshold 99/100. -/
def dsIdemClean : Dataset :=
  { cols := ["a", "b"], rows := [[Cell.val "2", Cell.val "3"]] }

/-! ## General lemmas about the cleaning pipeline -/

/-- The executable keep-test agrees with the source formula: column `j`
survives `df.dropna(axis="columns", thresh=(1 - t) * df.shape[0])` iff its
non-NA count is at least `(1 - t) * nrows`. -/
theorem keepCol_iff (t : ℚ) (d : Dataset) (j : ℕ) :
    keepCol t d j = true ↔
      (1 - t) * (d.rows.length : ℚ) ≤ (nonNACount d j : ℚ) := by
  have hden : (0 : ℚ) < (t.den : ℚ) := by exact_mod_cast t.den_pos
  have ht : t * (t.den : ℚ) = (t.num : ℚ) := by
    nth_rewrite 1 [← Rat.num_div_den t]
    exact div_mul_cancel₀ _ hden.ne'
  rw [keepCol, decide_eq_true_eq, ← Int.cast_le (R := ℚ)]
  push_cast
  constructor
  · intro h
    have h2 : (1 - t) * (d.rows.length : ℚ) * (t.den : ℚ) ≤
        (nonNACount d j : ℚ) * (t.den : ℚ) := by
      calc (1 - t) * (d.rows.length : ℚ) * (t.den : ℚ)
          = ((t.den : ℚ) - (t.num : ℚ)) * (d.rows.length : ℚ) := by
            rw [← ht]; ring
        _ ≤ _ := h
    exact le_of_mul_le_mul_right h2 hden
  · intro h
    have h2 := mul_le_mul_of_nonneg_right h hden.le
    calc ((t.den : ℚ) - (t.num : ℚ)) * (d.rows.length : ℚ)
        = (1 - t) * (d.rows.length : ℚ) * (t.den : ℚ) := by rw [← ht]; ring
      _ ≤ _ := h2

/-- Reading every index of a list back with its own length recovers the
list. -/
theorem map_getD_range {α : Type} (l : List α) (a : α) :
    (List.range l.length).map (fun j => l.getD j a) = l := by
  induction l with
  | nil => rfl
  | cons x xs ih =>
    simp only [List.length_cons, List.range_succ_eq_map, List.map_cons, List.map_map,
      Function.comp_def, List.getD_cons_zero, List.getD_cons_succ, Nat.succ_eq_add_one]
    rw [ih]

/-- A map whose function fixes every element of the list is the identity. -/
theorem map_eq_self_of {α : Type} (l : List α) (f : α → α) (h : ∀ x ∈ l, f x = x) :
    l.map f = l := by
  induction l with
  | nil => rfl
  | cons x xs ih =>
    rw [List.map_cons, h x (List.mem_cons_self x xs),
      ih (fun y hy => h y (List.mem_cons_of_mem x hy))]

/-- Rows surviving the unconditional row drop contain no missing value. -/
theorem rowHasNA_eq_false_of_mem_dropNARows {r : List Cell} {rs : List (List Cell)}
    (h : r ∈ dropNARows rs) : rowHasNA r = false := by
  have h2 := (List.mem_filter.mp h).2
  simpa using h2

/-- Row dropping is the identity on a dataset with no missing values. -/
theorem rowStep_eq_self (d : Dataset) (h : ∀ r ∈ d.rows, rowHasNA r = false) :
    rowStep d = d := by
  obtain ⟨cols, rows⟩ := d
  have h2 : dropNARows rows = rows :=
    List.filter_eq_self.mpr (fun r hr => by simpa using h r hr)
  show Dataset.mk cols (dropNARows rows) = Dataset.mk cols rows
  rw [h2]

/-- After the threshold column drop every row has exactly as many cells as
there are surviving columns. -/
theorem dropColsByThresh_row_lengths (q : ℚ) (d : Dataset) :
    ∀ r ∈ (dropColsByThresh q d).rows, r.length = (dropColsByThresh q d).cols.length := by
  intro r hr
  simp only [dropColsByThresh, List.mem_map] at hr
  obtain ⟨r0, _, rfl⟩ := hr
  simp [dropColsByThresh]

/-- The threshold column drop is the identity on a rectangular dataset all of
whose columns pass the keep-test. -/
theorem dropColsByThresh_eq_self (q : ℚ) (d : Dataset)
    (hkeep : ∀ j, j < d.cols.length → keepCol q d j = true)
    (hlen : ∀ r ∈ d.rows, r.length = d.cols.length) :
    dropColsByThresh q d = d := by
  have hk : keptIdx q d = List.range d.cols.length :=
    List.filter_eq_self.mpr (fun j hj => hkeep j (List.mem_range.mp hj))
  obtain ⟨cols, rows⟩ := d
  show Dataset.mk _ _ = Dataset.mk cols rows
  rw [Dataset.mk.injEq]
  constructor
  · rw [show keptIdx q (Dataset.mk cols rows) = List.range cols.length from hk]
    exact map_getD_range cols ""
  · apply map_eq_self_of
    intro r hr
    rw [show keptIdx q (Dataset.mk cols rows) = List.range cols.length from hk]
    rw [show cols.length = r.length from (hlen r hr).symm]
    exact map_getD_range r Cell.na

/-- With a negative threshold and at least one row, the keep-test fails for
every column: the threshold drop removes all columns. -/
theorem dropColsByThresh_cols_of_neg (q : ℚ) (d : Dataset) (hq : q < 0)
    (hrows : d.rows ≠ []) : (dropColsByThresh q d).cols = [] := by
  have hk : keptIdx q d = [] := by
    refine List.filter_eq_nil_iff.mpr ?_
    intro j hj
    rw [keepCol_iff]
    push_neg
    have hcount : nonNACount d j ≤ d.rows.length := by
      have h := List.countP_le_length (p := fun c => !c.isNA) (l := colCells d j)
      simpa [nonNACount, colCells] using h
    have hc : (nonNACount d j : ℚ) ≤ (d.rows.length : ℚ) := by exact_mod_cast hcount
    have h0 : 0 < d.rows.length := List.length_pos.mpr hrows
    have h1 : (1 : ℚ) ≤ (d.rows.length : ℚ) := by exact_mod_cast h0
    nlinarith [mul_nonneg (neg_nonneg.mpr hq.le) (sub_nonneg.mpr h1)]
  simp [dropColsByThresh, hk]

/-- In a dataset whose rows are rectangular and free of missing values, every
column's non-NA count is the full row count. -/
theorem nonNACount_full (X : Dataset) (j : ℕ) (hj : j < X.cols.length)
    (hnoNA : ∀ r ∈ X.rows, rowHasNA r = false)
    (hlenX : ∀ r ∈ X.rows, r.length = X.cols.length) :
    nonNACount X j = X.rows.length := by
  have hlencc : (colCells X j).length = X.rows.length := by simp [colCells]
  rw [nonNACount, ← hlencc]
  apply List.countP_eq_length.mpr
  intro c hc
  simp only [colCells, List.mem_map] at hc
  obtain ⟨r, hrX, rfl⟩ := hc
  have hjr : j < r.length := by rw [hlenX r hrX]; exact hj
  rw [List.getD_eq_getElem _ _ hjr]
  have hna := hnoNA r hrX
  rw [rowHasNA] at hna
  have h2 := List.any_eq_false.mp hna _ (List.getElem_mem hjr)
  simp only [Bool.not_eq_true] at h2
  simp [h2]

/-- The threshold column drop is the identity on a rectangular dataset with no
missing values, provided that a negative threshold is only paired with an
empty column list or empty row list (as the pipeline guarantees). -/
theorem dropColsByThresh_eq_self_of_clean (q : ℚ) (X : Dataset)
    (hnoNA : ∀ r ∈ X.rows, rowHasNA r = false)
    (hlenX : ∀ r ∈ X.rows, r.length = X.cols.length)
    (hempty : q < 0 → X.rows ≠ [] → X.cols = []) :
    dropColsByThresh q X = X := by
  apply dropColsByThresh_eq_self q X ?_ hlenX
  intro j hj
  rw [keepCol_iff, nonNACount_full X j hj hnoNA hlenX]
  rcases le_or_lt 0 q with hq0 | hq0
  · nlinarith [mul_nonneg hq0 (Nat.cast_nonneg (α := ℚ) X.rows.length)]
  · rcases hXr : X.rows with _ | ⟨r0, rs⟩
    · simp
    · exfalso
      have hc := hempty hq0 (by rw [hXr]; simp)
      rw [hc] at hj
      exact absurd hj (by simp)

/-- Rewriting lemma: `clean_data` with no named columns to drop is the
threshold step followed by the row step, returning the result with its own
column list. -/
theorem clean_data_none (t : Option ℚ) (d : Dataset) :
    clean_data none t d =
      Except.ok (rowStep (threshStep t d), (rowStep (threshStep t d)).cols) := rfl

/-- The threshold step with a truthy threshold is the column drop. -/
theorem threshStep_truthy {t : Option ℚ} (h : pyTruthyQ t = true) (d : Dataset) :
    threshStep t d = dropColsByThresh (t.getD 0) d := by
  rw [threshStep, h]
  rfl

/-- The threshold step with a falsy threshold is skipped. -/
theorem threshStep_falsy {t : Option ℚ} (h : pyTruthyQ t = false) (d : Dataset) :
    threshStep t d = d := by
  rw [threshStep, h]
  rfl

/-- One pass of threshold-drop-then-row-drop is a fixed point of a second
identical pass: its output has no missing values and is rectangular, so no
further column or row is removed. -/
theorem rowStep_threshStep_idem (t : Option ℚ) (d : Dataset) :
    rowStep (threshStep t (rowStep (threshStep t d))) = rowStep (threshStep t d) := by
  have hnoNA : ∀ r ∈ (rowStep (threshStep t d)).rows, rowHasNA r = false := by
    intro r hr
    exact rowHasNA_eq_false_of_mem_dropNARows hr
  cases htt : pyTruthyQ t with
  | false =>
    rw [threshStep_falsy htt (rowStep (threshStep t d))]
    exact rowStep_eq_self _ hnoNA
  | true =>
    rw [threshStep_truthy htt (rowStep (threshStep t d))]
    have hlenX : ∀ r ∈ (rowStep (threshStep t d)).rows,
        r.length = (rowStep (threshStep t d)).cols.length := by
      intro r hr
      have hr2 : r ∈ (threshStep t d).rows := (List.mem_filter.mp hr).1
      show r.length = (threshStep t d).cols.length
      rw [threshStep_truthy htt d] at hr2 ⊢
      exact dropColsByThresh_row_lengths (t.getD 0) d r hr2
    have hempty : t.getD 0 < 0 → (rowStep (threshStep t d)).rows ≠ [] →
        (rowStep (threshStep t d)).cols = [] := by
      intro hq0 hne
      have hdrows : d.rows ≠ [] := by
        intro hd
        apply hne
        show dropNARows (threshStep t d).rows = []
        rw [threshStep_truthy htt d]
        simp [dropColsByThresh, hd, dropNARows]
      show (threshStep t d).cols = []
      rw [threshStep_truthy htt d]
      exact dropColsByThresh_cols_of_neg (t.getD 0) d hq0 hdrows
    rw [dropColsByThresh_eq_self_of_clean (t.getD 0) (rowStep (threshStep t d))
      hnoNA hlenX hempty]
    exact rowStep_eq_self _ hnoNA

/-- Every successful `drop_steps` result is a row step applied after a
threshold step. -/
theorem drop_steps_ok_shape (dc : Option (List String)) (t : Option ℚ) (d d3 : Dataset)
    (h : drop_steps dc t d = Except.ok d3) :
    ∃ d1, d3 = rowStep (threshStep t d1) := by
  unfold drop_steps at h
  cases hn : namedStep dc d with
  | error e => rw [hn] at h; exact Except.noConfusion h
  | ok d1 => rw [hn] at h; exact ⟨d1, (Except.ok.inj h).symm⟩

/-! ## Claim theorems -/

/-- C1: evaluation of `get_common_items` at surviving columns `[a,b,c]` and
declared columns `[b,d]`.  Because the guard `if list1 or list2 is None`
parses as `if list1 or (list2 is None)`, a non-empty `list1` short-circuits:
the call returns `None`, not the intersection `[b]` promised by the function's
own docstring and example. -/
theorem get_common_items_precedence_bug :
    get_common_items (some ["a", "b", "c"]) (some ["b", "d"]) = Except.ok none ∧
      get_common_items (some ["a", "b", "c"]) (some ["b", "d"]) ≠
        Except.ok (some ["b"]) := by
  constructor
  · rfl
  · intro hcontra
    injection hcontra with h0
    exact Option.noConfusion h0

/-- C2: evaluation of the persistence behaviour of `train_clustering_model` at
`save_model=False` (and at `save_model=True`).  Line 72's import rebinds the
local name `save_model`, so the flag is ignored: even with `save_model=False`
the model file `{file_name}_{date}` is written and the save handle is
returned, contradicting the claim (and the docstring) that no file is written
and the in-memory model is returned. -/
theorem train_clustering_model_save_flag_ignored :
    train_clustering_model false "cluster_model" "2022-01-01" =
      (["cluster_model_2022-01-01"],
        TrainReturn.savedHandle "cluster_model_2022-01-01") ∧
    train_clustering_model true "cluster_model" "2022-01-01" =
      (["cluster_model_2022-01-01"],
        TrainReturn.savedHandle "cluster_model_2022-01-01") :=
  ⟨rfl, rfl⟩

/-- C3: evaluation of `clean_data` at threshold 1/2 on a two-row dataset whose
column `"x"` has missing ratio exactly 1/2.  pandas keeps a column with at
least `thresh = (1 - t) * nrows` non-NA values, so the boundary column
survives (its row is then dropped by the row step): the drop boundary is
exclusive, not inclusive as the claim and the docstring state.  All numbers
involved (1/2, 2, 1) are exactly representable, so this is not a
floating-point artefact. -/
theorem clean_data_threshold_boundary_excluded :
    clean_data none (some (mkRat 1 2)) dsBoundary =
      Except.ok ({ cols := ["x", "y"], rows := [[Cell.val "1", Cell.val "2"]] },
        ["x", "y"]) := rfl

/-- C4 counterexample: with `save_output=True` and the unsupported format
`"parquet"`, `assign_cluster_labels` raises nothing — it falls through both
format checks and returns Python `None`, writing no file; and the `"json"`
branch calls `to_json` with no `orient` argument (pandas' default
column-oriented layout), not row-oriented records. -/
theorem assign_cluster_labels_unknown_format_silent :
    (assign_cluster_labels "cluster_model" true none "parquet").isRaised = false ∧
    assign_cluster_labels "cluster_model" true none "parquet" =
      AssignResult.noneSilent ∧
    assign_cluster_labels "cluster_model" true (some "out") "json" =
      AssignResult.written (WriteAction.json "out.json" none) :=
  ⟨rfl, rfl, rfl⟩

/-- C4 (amended): with `save_output=True`, any `output_format` other than
`"csv"` and `"json"` makes `assign_cluster_labels` return `None` silently,
with no write and no error; `"csv"` writes `{file_name}.csv` with
`index=False` (no row-index column); `"json"` writes `{file_name}.json` via
`to_json` with no `orient` argument, i.e. pandas' default column-oriented
layout. -/
theorem assign_cluster_labels_format_dispatch (m : String) (fn : Option String)
    (fmt : String) (h1 : fmt ≠ "csv") (h2 : fmt ≠ "json") :
    assign_cluster_labels m true fn fmt = AssignResult.noneSilent ∧
    assign_cluster_labels m true fn "csv" =
      AssignResult.written (WriteAction.csv (fn.getD m ++ ".csv") false) ∧
    assign_cluster_labels m true fn "json" =
      AssignResult.written (WriteAction.json (fn.getD m ++ ".json") none) := by
  refine ⟨?_, ?_, ?_⟩ <;> simp [assign_cluster_labels, h1, h2]

/-- C4 witness: the amended dispatch at concrete arguments. -/
theorem assign_cluster_labels_format_dispatch_witness :
    assign_cluster_labels "cluster_model" true none "parquet" =
      AssignResult.noneSilent ∧
    assign_cluster_labels "cluster_model" true none "csv" =
      AssignResult.written (WriteAction.csv "cluster_model.csv" false) ∧
    assign_cluster_labels "cluster_model" true none "json" =
      AssignResult.written (WriteAction.json "cluster_model.json" none) :=
  assign_cluster_labels_format_dispatch "cluster_model" none "parquet"
    (by decide) (by decide)

/-- C9: the dataset `clean_data` returns is exactly the dataset as it stood
after column and row dropping; the klib memory/type-normalisation step (whose
return value line 75 discards) alters no value. -/
theorem clean_data_klib_preserves_values (dc : Option (List String)) (t : Option ℚ)
    (d d3 : Dataset) (h : drop_steps dc t d = Except.ok d3) :
    clean_data dc t d = Except.ok (d3, d3.cols) ∧ klibStep d3 = d3 := by
  constructor
  · unfold clean_data
    rw [h]
    rfl
  · rfl

/-- C9 witness: the klib step preserves a concrete cleaned dataset. -/
theorem clean_data_klib_preserves_values_witness :
    clean_data none none dsKlib = Except.ok (dsKlibClean, ["a"]) ∧
      klibStep dsKlibClean = dsKlibClean :=
  clean_data_klib_preserves_values none none dsKlib dsKlibClean rfl

/-- C10: with `column_drop_threshold` equal to `None` or `0` — both falsy in
Python — the `if column_drop_threshold:` guard skips the missing-ratio column
drop entirely: every column survives regardless of how many values it is
missing, and only the unconditional row drop still runs. -/
theorem clean_data_falsy_threshold_skips_column_drop (t : Option ℚ) (d : Dataset)
    (h : t = none ∨ t = some 0) :
    clean_data none t d =
      Except.ok ({ cols := d.cols, rows := dropNARows d.rows }, d.cols) := by
  have htt : pyTruthyQ t = false := by
    rcases h with rfl | rfl
    · rfl
    · rfl
  rw [clean_data_none, threshStep_falsy htt d]
  rfl

/-- C10 witness: threshold `0` on a dataset whose column `"x"` is 100%
missing — the column is kept (only the rows are dropped). -/
theorem clean_data_falsy_threshold_witness :
    clean_data none (some 0) dsAllNACol =
      Except.ok ({ cols := ["x", "y"], rows := [] }, ["x", "y"]) :=
  clean_data_falsy_threshold_skips_column_drop (some 0) dsAllNACol (Or.inr rfl)

/-- C6: after `clean_data` completes successfully, no cell of the returned
dataset is missing — the unconditional row drop of line 71 removes every row
that still contains a missing value, and the klib step changes nothing. -/
theorem clean_data_no_missing (dc : Option (List String)) (t : Option ℚ)
    (d df : Dataset) (feats : List String)
    (h : clean_data dc t d = Except.ok (df, feats)) :
    noMissing df = true := by
  unfold clean_data at h
  cases hn : drop_steps dc t d with
  | error e => rw [hn] at h; exact Except.noConfusion h
  | ok d3 =>
    rw [hn] at h
    have h0 : klibStep d3 = df := congrArg Prod.fst (Except.ok.inj h)
    obtain ⟨d1, hshape⟩ := drop_steps_ok_shape dc t d d3 hn
    rw [← h0, klibStep, hshape, noMissing]
    apply List.all_eq_true.mpr
    intro r hr
    have h2 := rowHasNA_eq_false_of_mem_dropNARows
      (hr : r ∈ dropNARows (threshStep t d1).rows)
    simp [h2]

/-- C6 witness: cleaning a concrete dataset with one missing cell yields a
dataset with no missing cell. -/
theorem clean_data_no_missing_witness :
    noMissing { cols := ["a"], rows := [[Cell.val "1"]] } = true :=
  clean_data_no_missing none none dsMissingOne
    { cols := ["a"], rows := [[Cell.val "1"]] } ["a"] rfl

/-- C8: cleaning is idempotent — applying `clean_data` (same threshold, no
named columns) to its own output returns that output and the same
surviving-column list: the first pass leaves no missing values, so the second
pass drops no further column (every count equals the row count) and no further
row. -/
theorem clean_data_idempotent (t : Option ℚ) (d df : Dataset) (feats : List String)
    (h : clean_data none t d = Except.ok (df, feats)) :
    clean_data none t df = Except.ok (df, feats) := by
  rw [clean_data_none] at h
  injection h with h0
  injection h0 with h1 h2
  subst h1
  subst h2
  rw [clean_data_none, rowStep_threshStep_idem t d]

/-- C8 witness: cleaning the cleaned form of a concrete dataset at threshold
99/100 returns it unchanged. -/
theorem clean_data_idempotent_witness :
    clean_data none (some (mkRat 99 100)) dsIdemClean =
      Except.ok (dsIdemClean, ["a", "b"]) :=
  clean_data_idempotent (some (mkRat 99 100)) dsIdem dsIdemClean ["a", "b"] rfl

/-! ## Lemmas about Python max and first-index search -/

/-- The seed of a fold of binary `max` is a lower bound of the result. -/
theorem le_foldl_max (xs : List ℚ) (a : ℚ) : a ≤ xs.foldl max a := by
  induction xs generalizing a with
  | nil => exact le_refl a
  | cons x xs ih => exact le_trans (le_max_left a x) (ih (max a x))

/-- Every element of the list is a lower bound of a fold of binary `max`. -/
theorem mem_le_foldl_max (xs : List ℚ) (a b : ℚ) : b ∈ xs → b ≤ xs.foldl max a := by
  induction xs generalizing a with
  | nil => intro hb; exact absurd hb (List.not_mem_nil b)
  | cons x xs ih =>
    intro hb
    rcases List.mem_cons.mp hb with rfl | hb2
    · exact le_trans (le_max_right a b) (le_foldl_max xs (max a b))
    · exact ih (max a x) hb2

/-- A fold of binary `max` returns its seed or one of the elements. -/
theorem foldl_max_mem (xs : List ℚ) (a : ℚ) :
    xs.foldl max a = a ∨ xs.foldl max a ∈ xs := by
  induction xs generalizing a with
  | nil => exact Or.inl rfl
  | cons x xs ih =>
    simp only [List.foldl_cons]
    rcases ih (max a x) with h | h
    · rcases max_choice a x with h2 | h2
      · exact Or.inl (by rw [h, h2])
      · refine Or.inr ?_
        rw [h, h2]
        exact List.mem_cons_self x xs
    · exact Or.inr (List.mem_cons_of_mem x h)

/-- Python's `max` returns an element of the list. -/
theorem pymax_mem (l : List ℚ) (m : ℚ) (h : pymax l = some m) : m ∈ l := by
  cases l with
  | nil => exact Option.noConfusion h
  | cons x xs =>
    have hm : xs.foldl max x = m := Option.some.inj h
    rcases foldl_max_mem xs x with h2 | h2
    · rw [← hm, h2]; exact List.mem_cons_self x xs
    · rw [← hm]; exact List.mem_cons_of_mem x h2

/-- Python's `max` bounds every element of the list. -/
theorem le_pymax (l : List ℚ) (m : ℚ) (h : pymax l = some m) : ∀ b ∈ l, b ≤ m := by
  cases l with
  | nil => intro b hb; exact absurd hb (List.not_mem_nil b)
  | cons x xs =>
    intro b hb
    have hm : xs.foldl max x = m := Option.some.inj h
    rcases List.mem_cons.mp hb with rfl | hb2
    · rw [← hm]; exact le_foldl_max xs b
    · rw [← hm]; exact mem_le_foldl_max xs x b hb2

/-- `findIdx` characterisation: if position `i` satisfies the predicate and no
earlier position does, `findIdx` returns `i` — the Python `list.index`
first-occurrence rule. -/
theorem findIdx_spec {α : Type} (p : α → Bool) (l : List α) (i : ℕ) (hi : i < l.length)
    (hp : p (l.get ⟨i, hi⟩) = true)
    (hfirst : ∀ j (hj : j < i), p (l.get ⟨j, lt_trans hj hi⟩) = false) :
    l.findIdx p = i := by
  induction l generalizing i with
  | nil => exact absurd hi (Nat.not_lt_zero i)
  | cons a l ih =>
    rw [List.findIdx_cons]
    cases i with
    | zero =>
      have h0 : p a = true := hp
      simp [h0]
    | succ n =>
      have h0 : p a = false := hfirst 0 (Nat.succ_pos n)
      have hn : n < l.length := Nat.lt_of_succ_lt_succ hi
      have hrec : l.findIdx p = n :=
        ih n hn hp (fun j hj => hfirst (j + 1) (Nat.succ_lt_succ hj))
      simp [h0, hrec]

/-- If some element satisfies the predicate, `findIdx` stays in range. -/
theorem findIdx_lt_of_mem {α : Type} (p : α → Bool) (l : List α) (x : α) (hx : x ∈ l)
    (hp : p x = true) : l.findIdx p < l.length := by
  induction l with
  | nil => exact absurd hx (List.not_mem_nil x)
  | cons a l ih =>
    rw [List.findIdx_cons]
    cases hpa : p a with
    | true => simp
    | false =>
      rcases List.mem_cons.mp hx with rfl | hx2
      · rw [hpa] at hp; exact absurd hp (by simp)
      · simp only [cond_false, List.length_cons]
        exact Nat.succ_lt_succ (ih hx2)

/-- Each candidate appears once in the Auto-K training sequence
`k_space ++ [w]`, and the winner `w` twice. -/
theorem k_space_count : ∀ w ∈ k_space, ∀ k ∈ k_space,
    (k_space ++ [w]).count k = if k = w then 2 else 1 := by decide

/-- C5: the Auto-K selection rule `k_space[score.index(max(score))]` picks the
candidate whose recorded score is maximal, and on ties the first occurrence in
scan order 3→10 wins: if position `i` holds a maximal score and strictly
exceeds every earlier score, the `i`-th candidate is selected. -/
theorem select_best_k_first_max (score : List ℚ) (i : ℕ) (hlen : score.length = 8)
    (hi : i < 8)
    (hmax : ∀ j, j < 8 → score.getD j 0 ≤ score.getD i 0)
    (hfirst : ∀ j, j < i → score.getD j 0 < score.getD i 0) :
    select_best_k score = some (k_space.getD i 0) := by
  have hi' : i < score.length := by omega
  obtain ⟨m, hm⟩ : ∃ m, pymax score = some m := by
    cases hsc : score with
    | nil => rw [hsc] at hlen; exact absurd hlen (by simp)
    | cons x xs => exact ⟨xs.foldl max x, rfl⟩
  have hmi : m = score[i] := by
    have h1 : score[i] ≤ m := le_pymax score m hm _ (List.getElem_mem hi')
    obtain ⟨j, hj, hji⟩ := List.getElem_of_mem (pymax_mem score m hm)
    have h2 : m ≤ score[i] := by
      rw [← hji]
      have h3 := hmax j (by omega)
      rwa [List.getD_eq_getElem _ _ hj, List.getD_eq_getElem _ _ hi'] at h3
    exact le_antisymm h2 h1
  have hfind : score.findIdx (fun s => decide (s = m)) = i := by
    refine findIdx_spec _ score i hi' ?_ ?_
    · simp [List.get_eq_getElem, hmi]
    · intro j hj
      have h4 := hfirst j hj
      have hj' : j < score.length := by omega
      rw [List.getD_eq_getElem _ _ hj', List.getD_eq_getElem _ _ hi'] at h4
      simp only [List.get_eq_getElem, hmi, decide_eq_false_iff_not]
      exact ne_of_lt h4
  have hik : i < k_space.length := by simpa [k_space] using hi
  simp only [select_best_k, hm, hfind]
  rw [List.getElem?_eq_getElem hik, List.getD_eq_getElem _ _ hik]

/-- C5 witness: the claim's concrete scores (0.1, 0.2, 0.9, 0.3, 0.2, 0.1,
0.05, 0.4, as exact rationals) select k = 5, the first maximum. -/
theorem select_best_k_first_max_witness :
    select_best_k
        [mkRat 1 10, mkRat 2 10, mkRat 9 10, mkRat 3 10, mkRat 2 10, mkRat 1 10,
          mkRat 5 100, mkRat 4 10] = some 5 :=
  select_best_k_first_max
    [mkRat 1 10, mkRat 2 10, mkRat 9 10, mkRat 3 10, mkRat 2 10, mkRat 1 10,
      mkRat 5 100, mkRat 4 10] 2 rfl (by decide) (by decide) (by decide)

/-- C7: whatever silhouette score each candidate fit reports,
`automl_clustering` invokes the full training operation once per candidate in
`k_space = {3..10}` in scan order and then exactly once more for the winning
`k` — nine invocations in total, each candidate trained once and the winner
twice. -/
theorem automl_clustering_nine_trainings (sil : ℕ → ℚ) :
    ∃ w, w ∈ k_space ∧ automl_clustering_trace sil = some (k_space ++ [w]) ∧
      (k_space ++ [w]).length = 9 ∧
      ∀ k ∈ k_space, (k_space ++ [w]).count k = if k = w then 2 else 1 := by
  obtain ⟨m, hm⟩ : ∃ m, pymax (k_space.map sil) = some m := ⟨_, rfl⟩
  have hfl : (k_space.map sil).findIdx (fun s => decide (s = m)) <
      (k_space.map sil).length :=
    findIdx_lt_of_mem _ _ m (pymax_mem _ m hm) (by simp)
  have hik : (k_space.map sil).findIdx (fun s => decide (s = m)) < k_space.length := by
    simpa using hfl
  have hsel : select_best_k (k_space.map sil) =
      some (k_space[(k_space.map sil).findIdx (fun s => decide (s = m))]) := by
    simp only [select_best_k, hm]
    exact List.getElem?_eq_getElem hik
  refine ⟨_, List.getElem_mem hik, ?_, by simp [k_space], ?_⟩
  · simp only [automl_clustering_trace, hsel]
  · exact k_space_count _ (List.getElem_mem hik)
